import Mathlib

/-!
Verification of the request-defense layer of the SurajSunar/surbhutech
repository: the input-sanitization utilities (src/lib/security.ts), the
contact-form schema (src/lib/validations.ts), the CSRF token manager
(src/lib/csrf.ts) and the rate limiter (src/lib/rate-limit.ts).

Strings are modelled as Lean `String`/`List Char`; JavaScript timestamps
(`Date.now()`) as `Int`; the `Map` stores either as association lists (where
`size` matters) or as functions `String → Option Entry`.

The JavaScript regular expressions used by `sanitizeInput` are embedded with
a small token machine (`Tok`).  Every star/plus in the source patterns ranges
over a single-character class, and in every pattern the class of a greedy
star/plus can never match the first character of the literal that follows it,
so greedy maximal munch (no backtracking) coincides with JavaScript's
backtracking semantics for exactly these patterns; lazy `.*?` only occurs as
the final `.*?<literal>` of a pattern and is embedded directly as `lazyThru`.
-/

/-- Case-insensitive character comparison, as the `i` regex flag does
(`Char.toLower` lower-cases exactly the basic latin letters, which is all the
source patterns contain). -/
def ciEq (a b : Char) : Bool :=
  a.toLower == b.toLower

/-- Match a case-insensitive literal at the head of the input; on success
return the rest of the input. -/
def matchLit : List Char → List Char → Option (List Char)
  | [], l => some l
  | _ :: _, [] => none
  | p :: ps, c :: cs => if ciEq p c then matchLit ps cs else none

/-- Lazy `.*?stop` (with the `s` flag, so `.` matches anything): skip the
shortest run of characters after which the literal `stop` matches, and
consume `stop` too. -/
def lazyThru (stop : List Char) : List Char → Option (List Char)
  | [] => matchLit stop []
  | c :: cs =>
    match matchLit stop (c :: cs) with
    | some r => some r
    | none => lazyThru stop cs

/-- One element of an embedded regular expression. -/
inductive Tok where
  /-- a case-insensitive literal -/
  | lit : List Char → Tok
  /-- a greedy star over a one-character class -/
  | star : (Char → Bool) → Tok
  /-- a greedy plus over a one-character class -/
  | plus : (Char → Bool) → Tok
  /-- exactly one character of a class -/
  | one : (Char → Bool) → Tok
  /-- lazy `.*?` followed by a case-insensitive literal -/
  | lazyThru : List Char → Tok

/-- Match a token sequence at the head of the input; on success return the
rest of the input after the match. -/
def matchToks : List Tok → List Char → Option (List Char)
  | [], l => some l
  | Tok.lit w :: ts, l => (matchLit w l).bind (matchToks ts)
  | Tok.star p :: ts, l => matchToks ts (l.dropWhile p)
  | Tok.plus _ :: _, [] => none
  | Tok.plus p :: ts, c :: cs =>
    if p c then matchToks ts (cs.dropWhile p) else none
  | Tok.one _ :: _, [] => none
  | Tok.one p :: ts, c :: cs => if p c then matchToks ts cs else none
  | Tok.lazyThru stop :: ts, l => (lazyThru stop l).bind (matchToks ts)

/-- `String.prototype.replace` with a global regex and replacement `''`:
scan left to right; a (non-empty) match is removed and the scan continues
after it; at a position with no match the character is kept.  The
`rest.length < cs.length + 1` test distinguishes a non-empty match (skip it)
from a zero-length match (JavaScript keeps the character and bumps
`lastIndex`); none of the embedded patterns can actually match the empty
string.  Fuel is the length of the input, which the invariant
`fuel ≥ length` keeps sufficient. -/
def repAllGo (p : List Tok) : Nat → List Char → List Char
  | _, [] => []
  | 0, l => l
  | n + 1, c :: cs =>
    match matchToks p (c :: cs) with
    | some rest =>
      if rest.length < cs.length + 1 then repAllGo p n rest
      else c :: repAllGo p n cs
    | none => c :: repAllGo p n cs

/-- Remove every match of pattern `p` from the input. -/
def repAll (p : List Tok) (l : List Char) : List Char :=
  repAllGo p l.length l

/-- JavaScript `\w`: `[A-Za-z0-9_]`. -/
def isWordChar (c : Char) : Bool :=
  c.isAlphanum || c == Char.ofNat 95

/-- JavaScript `\s`: WhiteSpace and LineTerminator code points. -/
def isJsSpace (c : Char) : Bool :=
  c.toNat == 9 || c.toNat == 10 || c.toNat == 11 || c.toNat == 12 ||
  c.toNat == 13 || c.toNat == 32 || c.toNat == 160 || c.toNat == 5760 ||
  (8192 ≤ c.toNat && c.toNat ≤ 8202) || c.toNat == 8232 ||
  c.toNat == 8233 || c.toNat == 8239 || c.toNat == 8287 ||
  c.toNat == 12288 || c.toNat == 65279

/-- The class `[\da-f]` under the `i` flag: `[0-9a-fA-F]`. -/
def isHexChar (c : Char) : Bool :=
  c.isDigit || (97 ≤ c.toNat && c.toNat ≤ 102) || (65 ≤ c.toNat && c.toNat ≤ 70)

/-- The class `[^>]`. -/
def notGt (c : Char) : Bool :=
  !(c == Char.ofNat 62)

/-- The class `['"]`. -/
def isQuoteChar (c : Char) : Bool :=
  c == Char.ofNat 39 || c == Char.ofNat 34

/-- DANGEROUS_PATTERNS from src/lib/security.ts, in source order:
`/javascript:/gi`, `/data:text\/html/gi`, `/vbscript:/gi`, `/on\w+\s*=/gi`,
`/<script[^>]*>.*?<\/script>/gis`, `/<iframe[^>]*>.*?<\/iframe>/gis`,
`/<object[^>]*>.*?<\/object>/gis`, `/<embed[^>]*>.*?<\/embed>/gis`,
`/<form[^>]*>.*?<\/form>/gis`, `/<input[^>]*>/gis`,
`/<button[^>]*>.*?<\/button>/gis`, `/expression\s*\(/gi`, `/@import/gi`,
`/&#x[\da-f]+;/gi`, `/&#\d+;/gi`, `/from\s*\(\s*['"]\s*javascript/gi`. -/
def dangerousPatterns : List (List Tok) :=
  [ [Tok.lit ("javascript:").data],
    [Tok.lit ("data:text/html").data],
    [Tok.lit ("vbscript:").data],
    [Tok.lit ("on").data, Tok.plus isWordChar, Tok.star isJsSpace,
      Tok.lit ("=").data],
    [Tok.lit ("<script").data, Tok.star notGt, Tok.lit (">").data,
      Tok.lazyThru ("</script>").data],
    [Tok.lit ("<iframe").data, Tok.star notGt, Tok.lit (">").data,
      Tok.lazyThru ("</iframe>").data],
    [Tok.lit ("<object").data, Tok.star notGt, Tok.lit (">").data,
      Tok.lazyThru ("</object>").data],
    [Tok.lit ("<embed").data, Tok.star notGt, Tok.lit (">").data,
      Tok.lazyThru ("</embed>").data],
    [Tok.lit ("<form").data, Tok.star notGt, Tok.lit (">").data,
      Tok.lazyThru ("</form>").data],
    [Tok.lit ("<input").data, Tok.star notGt, Tok.lit (">").data],
    [Tok.lit ("<button").data, Tok.star notGt, Tok.lit (">").data,
      Tok.lazyThru ("</button>").data],
    [Tok.lit ("expression").data, Tok.star isJsSpace, Tok.lit ("(").data],
    [Tok.lit ("@import").data],
    [Tok.lit ("&#x").data, Tok.plus isHexChar, Tok.lit (";").data],
    [Tok.lit ("&#").data, Tok.plus Char.isDigit, Tok.lit (";").data],
    [Tok.lit ("from").data, Tok.star isJsSpace, Tok.lit ("(").data,
      Tok.star isJsSpace, Tok.one isQuoteChar, Tok.star isJsSpace,
      Tok.lit ("javascript").data] ]

/-- `sanitized.replace(pattern, '')` folded over DANGEROUS_PATTERNS in
source order. -/
def stripDangerous (l : List Char) : List Char :=
  dangerousPatterns.foldl (fun s p => repAll p s) l

/-- The class `[\x00-\x08\x0B\x0C\x0E-\x1F\x7F]` of the control-character
strip. -/
def isStripCtl (c : Char) : Bool :=
  c.toNat ≤ 8 || c.toNat == 11 || c.toNat == 12 ||
  (14 ≤ c.toNat && c.toNat ≤ 31) || c.toNat == 127

/-- Remove the control characters (everything in `isStripCtl`). -/
def stripControl (l : List Char) : List Char :=
  l.filter (fun c => !(isStripCtl c))

/-- `.replace(/x/g, r)` for a single character `x`. -/
def repChar (x : Char) (r : List Char) : List Char → List Char
  | [] => []
  | c :: cs => if c == x then r ++ repChar x r cs else c :: repChar x r cs

/-- The six sequential entity-encoding replacements of `sanitizeInput`, in
source order: `&`→`&amp;`, `<`→`&lt;`, `>`→`&gt;`, `"`→`&quot;`,
`'`→`&#x27;`, `/`→`&#x2F;`. -/
def entityEncode (l : List Char) : List Char :=
  repChar (Char.ofNat 47) ("&#x2F;").data
    (repChar (Char.ofNat 39) ("&#x27;").data
      (repChar (Char.ofNat 34) ("&quot;").data
        (repChar (Char.ofNat 62) ("&gt;").data
          (repChar (Char.ofNat 60) ("&lt;").data
            (repChar (Char.ofNat 38) ("&amp;").data l)))))

/-- The residual-tag strip `/<[^>]*>/g`. -/
def tagPattern : List Tok :=
  [Tok.lit ("<").data, Tok.star notGt, Tok.lit (">").data]

/-- JavaScript `String.prototype.trim`: drop `isJsSpace` characters from
both ends. -/
def jsTrim (l : List Char) : List Char :=
  (((l.dropWhile isJsSpace).reverse.dropWhile isJsSpace)).reverse

/-- The body of `sanitizeInput` on the character list of a non-empty input:
control-character strip, dangerous-pattern strip, entity encoding,
residual-tag strip, trim, `.substring(0, 2000)`. -/
def sanitizeList (l : List Char) : List Char :=
  List.take 2000 (jsTrim (repAll tagPattern (entityEncode (stripDangerous (stripControl l)))))

/-- `sanitizeInput` from src/lib/security.ts.  The `!input` guard returns
`''` for the empty string; the non-string cases of the source cannot arise
here. -/
def sanitizeInput (s : String) : String :=
  if s == ("") then ("") else String.mk (sanitizeList s.data)

/-! ## CSRF token manager (src/lib/csrf.ts) -/

/-- A stored CSRF token (`StoredToken` in src/lib/csrf.ts). -/
structure StoredToken where
  token : String
  createdAt : Int
  expiresAt : Int
  deriving DecidableEq

/-- TOKEN_TTL: one hour in milliseconds. -/
def TOKEN_TTL : Int := 60 * 60 * 1000

/-- MAX_STORED_TOKENS. -/
def MAX_STORED_TOKENS : Nat := 100

/-- The token store, modelling the JavaScript `Map` as an association list
in insertion order (`Map.set` of a fresh key appends; of a present key
updates in place). -/
abbrev TokenStore : Type := List (String × StoredToken)

/-- `Map.get`. -/
def mapGet (k : String) : TokenStore → Option StoredToken
  | [] => none
  | e :: t => if e.1 == k then some e.2 else mapGet k t

/-- `Map.set`. -/
def mapSet (k : String) (v : StoredToken) : TokenStore → TokenStore
  | [] => [(k, v)]
  | e :: t => if e.1 == k then (k, v) :: t else e :: mapSet k v t

/-- `Map.delete` (keys are unique in stores built by `mapSet`, so removing
every binding of the key is `Map.delete`). -/
def mapDelete (k : String) (st : TokenStore) : TokenStore :=
  st.filter (fun e => !(e.1 == k))

/-- `Map.size`. -/
def mapSize (st : TokenStore) : Nat :=
  st.length

/-- `cleanupExpiredTokens`: delete every entry with `now > expiresAt`. -/
def cleanupExpiredTokens (now : Int) (st : TokenStore) : TokenStore :=
  st.filter (fun e => !(decide (now > e.2.expiresAt)))

/-- `generateCSRFToken` from src/lib/csrf.ts.  The cryptographically random
value produced by `crypto.randomBytes(32).toString('hex')` — a 64-character
hex string, hence 64 UTF-8 bytes — is passed in as the `tok` argument; the
function stores it under `sessionId` and, if the store afterwards holds more
than MAX_STORED_TOKENS entries, runs the expired-token cleanup.  It returns
the token and the new store. -/
def generateCSRFToken (tok : String) (now : Int) (sessionId : String)
    (st : TokenStore) : String × TokenStore :=
  let stored : StoredToken := ⟨tok, now, now + TOKEN_TTL⟩
  let st1 := mapSet sessionId stored st
  let st2 := if mapSize st1 > MAX_STORED_TOKENS then cleanupExpiredTokens now st1 else st1
  (tok, st2)

/-- `crypto.timingSafeEqual(Buffer.from(a), Buffer.from(b))`: throws a
`RangeError` when the two buffers have different byte lengths (modelled as
`Except.error ()`), and otherwise reports byte equality, which for UTF-8
encodings of equal byte length is string equality. -/
def timingSafeEqual (a b : String) : Except Unit Bool :=
  if a.utf8ByteSize == b.utf8ByteSize then Except.ok (a == b)
  else Except.error ()

/-- `validateCSRFToken` from src/lib/csrf.ts: missing entry fails; an
expired entry is deleted and fails; otherwise the stored secret is compared
with `timingSafeEqual` and the entry is deleted *after* the comparison, so
a thrown comparison (`Except.error`) propagates with the entry still in the
store. -/
def validateCSRFToken (tok sessionId : String) (now : Int)
    (st : TokenStore) : Except Unit Bool × TokenStore :=
  match mapGet sessionId st with
  | none => (Except.ok false, st)
  | some stored =>
    if now > stored.expiresAt then (Except.ok false, mapDelete sessionId st)
    else
      match timingSafeEqual stored.token tok with
      | Except.error e => (Except.error e, st)
      | Except.ok b => (Except.ok b, mapDelete sessionId st)

/-- Issue one token per key in the list (same random value and timestamp for
each), returning the final store. -/
def issueMany (tok : String) (now : Int) (keys : List String)
    (st : TokenStore) : TokenStore :=
  keys.foldl (fun s k => (generateCSRFToken tok now k s).2) st

/-! ## Rate limiter (src/lib/rate-limit.ts) -/

/-- `RateLimitEntry`. -/
structure RateLimitEntry where
  count : Nat
  resetTime : Int
  lastSeen : Int
  deriving DecidableEq

/-- `RateLimitConfig`. -/
structure RateLimitConfig where
  window : Int
  maxRequests : Nat
  deriving DecidableEq

/-- The constructor's defaulting: `config.window || DEFAULT_WINDOW` and
`config.maxRequests || DEFAULT_MAX_REQUESTS` treat an absent or zero value
as falsy. -/
def mkRateLimitConfig (w : Option Int) (m : Option Nat) : RateLimitConfig :=
  ⟨match w with
   | some x => if x == 0 then 60000 else x
   | none => 60000,
   match m with
   | some x => if x == 0 then 5 else x
   | none => 5⟩

/-- The limiter's store, as a function from identifiers to entries (the
`check`/`cleanup` code only ever gets, sets and deletes by key). -/
abbrev RLStore : Type := String → Option RateLimitEntry

/-- The result record of `RateLimiter.check`.  `remaining` is an `Int`
because the source computes it as a JavaScript subtraction. -/
structure RLResult where
  allowed : Bool
  remaining : Int
  resetTime : Int
  deriving DecidableEq

/-- `Map.set` on the function store. -/
def rlUpdate (st : RLStore) (id : String) (e : RateLimitEntry) : RLStore :=
  fun k => if k == id then some e else st k

/-- `RateLimiter.cleanup`: delete every entry with
`lastSeen < now - window * 2` (`staleThreshold = now - window * 2`). -/
def rlCleanup (cfg : RateLimitConfig) (now : Int) (st : RLStore) : RLStore :=
  fun k =>
    (st k).bind (fun e => if e.lastSeen < now - cfg.window * 2 then none else some e)

/-- `RateLimiter.check`: fresh entry (and amortized cleanup) when the
identifier is unknown or its window has expired; a blocked result without
mutation when `count >= maxRequests`; otherwise an increment. -/
def check (cfg : RateLimitConfig) (id : String) (now : Int)
    (st : RLStore) : RLResult × RLStore :=
  let fresh : RLResult × RLStore :=
    let e : RateLimitEntry := ⟨1, now + cfg.window, now⟩
    (⟨true, (cfg.maxRequests : Int) - 1, now + cfg.window⟩,
      rlCleanup cfg now (rlUpdate st id e))
  match st id with
  | none => fresh
  | some entry =>
    if now > entry.resetTime then fresh
    else if cfg.maxRequests ≤ entry.count then
      (⟨false, 0, entry.resetTime⟩, st)
    else
      (⟨true, (cfg.maxRequests : Int) - (entry.count + 1), entry.resetTime⟩,
        rlUpdate st id ⟨entry.count + 1, entry.resetTime, now⟩)

/-- The store after `k` successive `check` calls for `id`, the `i`-th call
made at time `u i`. -/
def rlRunTimes (cfg : RateLimitConfig) (id : String) (u : Nat → Int)
    (st : RLStore) : Nat → RLStore
  | 0 => st
  | k + 1 => (check cfg id (u k) (rlRunTimes cfg id u st k)).2

/-- The result of the `k`-th call of `rlRunTimes` (0-indexed). -/
def rlResAt (cfg : RateLimitConfig) (id : String) (u : Nat → Int)
    (st : RLStore) (k : Nat) : RLResult :=
  (check cfg id (u k) (rlRunTimes cfg id u st k)).1

/-- The results a sequence of `check` calls for one identifier observes,
threading the store. -/
def rlObserve (cfg : RateLimitConfig) (id : String) (st : RLStore) :
    List Int → List RLResult
  | [] => []
  | t :: ts =>
    (check cfg id t st).1 :: rlObserve cfg id (check cfg id t st).2 ts

/-- Apply a list of `(identifier, time)` check calls to a store. -/
def applyCalls (cfg : RateLimitConfig) (calls : List (String × Int))
    (st : RLStore) : RLStore :=
  calls.foldl (fun s c => (check cfg c.1 c.2 s).2) st

/-- The empty limiter store. -/
def rlEmpty : RLStore := fun _ => none

/-! ## Email validation (src/lib/security.ts `validateEmail` and the Zod
contact-form schema of src/lib/validations.ts) -/

/-- Exact (case-sensitive) equality of `needle` with the start of `hay`. -/
def leadEq : List Char → List Char → Bool
  | [], _ => true
  | _ :: _, [] => false
  | a :: as, b :: bs => a == b && leadEq as bs

/-- Does `hay` contain `needle` as a contiguous substring
(`String.prototype.includes`)? -/
def containsSub (needle : List Char) : List Char → Bool
  | [] => leadEq needle []
  | c :: cs => leadEq needle (c :: cs) || containsSub needle cs

/-- The local-part class of `validateEmail`'s regex:
`[a-zA-Z0-9.!#$%&'*+/=?^_`{|}~-]` (codes listed for the punctuation). -/
def emailLocalChar (c : Char) : Bool :=
  c.isAlphanum ||
    ([33, 35, 36, 37, 38, 39, 42, 43, 45, 46, 47, 61, 63, 94, 95, 96,
      123, 124, 125, 126] : List Nat).contains c.toNat

/-- A domain label of `validateEmail`'s regex,
`[a-zA-Z0-9](?:[a-zA-Z0-9-]{0,61}[a-zA-Z0-9])?`: 1 to 63 characters,
alphanumeric first and last, alphanumeric or hyphen between. -/
def emailLabelOk (p : List Char) : Bool :=
  match p with
  | [] => false
  | c :: rest =>
    c.isAlphanum && p.length ≤ 63 &&
      (match rest.reverse with
       | [] => true
       | d :: mid => d.isAlphanum && mid.all (fun x => x.isAlphanum || x == Char.ofNat 45))

/-- The anchored test of `validateEmail`'s regex
`^[local]+@label(\.label)*$`.  The character classes on both sides of the
`@` exclude `@`, so the string must contain exactly one `@`; labels contain
no dot, so the dots of the domain exactly delimit its labels. -/
def emailRegexTest (s : String) : Bool :=
  match List.splitOn (Char.ofNat 64) s.data with
  | [loc, dom] =>
    !(loc.isEmpty) && loc.all emailLocalChar &&
      (List.splitOn (Char.ofNat 46) dom).all emailLabelOk
  | _ => false

/-- MAX_EMAIL_LENGTH. -/
def MAX_EMAIL_LENGTH : Nat := 255

/-- `validateEmail` from src/lib/security.ts: the regex test, then the
length cap, then rejection of any address containing `+` or `..`. -/
def validateEmail (email : String) : Bool :=
  if !(emailRegexTest email) then false
  else if email.length > MAX_EMAIL_LENGTH then false
  else if email.data.contains (Char.ofNat 43) || containsSub (("..").data) email.data then false
  else true

/-- The local-part class of the zod email regex, `[A-Z0-9_'+\-\.]` with the
`i` flag. -/
def zodLocalChar (c : Char) : Bool :=
  c.isAlphanum || c == Char.ofNat 95 || c == Char.ofNat 39 ||
    c == Char.ofNat 43 || c == Char.ofNat 45 || c == Char.ofNat 46

/-- The character allowed just before the `@` in the zod email regex,
`[A-Z0-9_+-]` with the `i` flag. -/
def zodLocalEnd (c : Char) : Bool :=
  c.isAlphanum || c == Char.ofNat 95 || c == Char.ofNat 43 ||
    c == Char.ofNat 45

/-- No two consecutive dots (the `(?!.*\.\.)` lookahead). -/
def noDoubleDot : List Char → Bool
  | [] => true
  | [_] => true
  | a :: b :: t => !(a == Char.ofNat 46 && b == Char.ofNat 46) && noDoubleDot (b :: t)

/-- The domain of the zod email regex, `([A-Z0-9][A-Z0-9\-]*\.)+[A-Z]{2,}`
with the `i` flag: at least one label (alphanumeric first, alphanumeric or
hyphen after) followed by a dot, then a final all-letter part of length at
least 2.  Labels contain no dot, so the dots exactly delimit the parts. -/
def zodDomainOk (dom : List Char) : Bool :=
  let parts := List.splitOn (Char.ofNat 46) dom
  2 ≤ parts.length &&
    (parts.dropLast.all (fun p =>
      match p with
      | [] => false
      | c :: rest => c.isAlphanum && rest.all (fun x => x.isAlphanum || x == Char.ofNat 45))) &&
    (match parts.getLast? with
     | some t => 2 ≤ t.length && t.all Char.isAlpha
     | none => false)

/-- Modelled from the zod library's email regular expression (zod is an
external dependency whose source is not part of this repository; the schema
in src/lib/validations.ts applies `z.string().email()`):
`/^(?!\.)(?!.*\.\.)([A-Z0-9_'+\-\.]*)[A-Z0-9_+-]@([A-Z0-9][A-Z0-9\-]*\.)+[A-Z]{2,}$/i`.
The classes exclude `@`, so the `@` of the pattern is the unique `@` of the
string; the greedy `([A-Z0-9_'+\-\.]*)` followed by one `[A-Z0-9_+-]` is
equivalent to: the local part is non-empty, its last character is in the
second class and the rest are in the first. -/
def zodEmailCheck (s : String) : Bool :=
  (match s.data with
   | [] => true
   | c :: _ => !(c == Char.ofNat 46)) &&
  noDoubleDot s.data &&
  (match List.splitOn (Char.ofNat 64) s.data with
   | [loc, dom] =>
     (match loc.reverse with
      | [] => false
      | c :: rest => zodLocalEnd c && rest.all zodLocalChar) &&
       zodDomainOk dom
   | _ => false)

/-- The validation checks of the `email` field of `contactFormSchema`
(src/lib/validations.ts): `z.string().email().min(5).max(255)` — the
`toLowerCase`/`trim` steps are transforms and do not affect acceptance. -/
def contactEmailValid (s : String) : Bool :=
  zodEmailCheck s && decide (5 ≤ s.length) && decide (s.length ≤ 255)

/-! ## Auxiliary definitions used by the statements and proofs -/

deriving instance DecidableEq for Except

/-- The characters a successful match of a token list must consume (the
literals; the star/plus/one classes are not forced). -/
def mandChars : List Tok → List Char
  | [] => []
  | Tok.lit w :: ts => w ++ mandChars ts
  | Tok.lazyThru w :: ts => w ++ mandChars ts
  | Tok.star _ :: ts => mandChars ts
  | Tok.plus _ :: ts => mandChars ts
  | Tok.one _ :: ts => mandChars ts

/-- Lowercase ASCII letters and digits — a character class on which the
whole sanitization pipeline is the identity. -/
def isLowerDigit (c : Char) : Bool :=
  (97 ≤ c.toNat && c.toNat ≤ 122) || (48 ≤ c.toNat && c.toNat ≤ 57)

/-- Every entry of a limiter store has `1 ≤ count ≤ maxRequests`. -/
def storeBounded (cfg : RateLimitConfig) (st : RLStore) : Prop :=
  ∀ id e, st id = some e → 1 ≤ e.count ∧ e.count ≤ cfg.maxRequests

/-! ## Lemmas about the pattern machine -/

theorem matchLit_sub : ∀ {w l m : List Char}, matchLit w l = some m → ∀ d ∈ m, d ∈ l := by
  intro w
  induction w with
  | nil =>
    intro l m h d hd
    simp [matchLit] at h
    exact h ▸ hd
  | cons p ps ih =>
    intro l m h d hd
    cases l with
    | nil => simp [matchLit] at h
    | cons c cs =>
      rw [matchLit] at h
      split at h
      · exact List.mem_cons_of_mem c (ih h d hd)
      · exact absurd h (by simp)

theorem matchLit_chars : ∀ {w l m : List Char}, matchLit w l = some m →
    ∀ c ∈ w, ∃ d ∈ l, ciEq c d = true := by
  intro w
  induction w with
  | nil => intro l m h c hc; simp at hc
  | cons p ps ih =>
    intro l m h c hc
    cases l with
    | nil => simp [matchLit] at h
    | cons x xs =>
      rw [matchLit] at h
      split at h
      case isTrue hci =>
        rcases List.mem_cons.1 hc with hc | hc
        · exact ⟨x, List.mem_cons_self x xs, hc ▸ hci⟩
        · rcases ih h c hc with ⟨d, hd, hcd⟩
          exact ⟨d, List.mem_cons_of_mem x hd, hcd⟩
      case isFalse => exact absurd h (by simp)

theorem lazyThru_sub : ∀ {stop l m : List Char}, lazyThru stop l = some m →
    ∀ d ∈ m, d ∈ l := by
  intro stop l
  induction l with
  | nil =>
    intro m h d hd
    rw [lazyThru] at h
    exact matchLit_sub h d hd
  | cons c cs ih =>
    intro m h d hd
    rw [lazyThru] at h
    revert h
    split
    case h_1 r heq => intro h; cases h; exact matchLit_sub heq d hd
    case h_2 => intro h; exact List.mem_cons_of_mem c (ih h d hd)

theorem lazyThru_chars : ∀ {stop l m : List Char}, lazyThru stop l = some m →
    ∀ c ∈ stop, ∃ d ∈ l, ciEq c d = true := by
  intro stop l
  induction l with
  | nil =>
    intro m h c hc
    rw [lazyThru] at h
    exact matchLit_chars h c hc
  | cons x xs ih =>
    intro m h c hc
    rw [lazyThru] at h
    revert h
    split
    case h_1 r heq => intro _; exact matchLit_chars heq c hc
    case h_2 =>
      intro h
      rcases ih h c hc with ⟨d, hd, hcd⟩
      exact ⟨d, List.mem_cons_of_mem x hd, hcd⟩

theorem dropWhile_mem {p : Char → Bool} {l : List Char} {d : Char}
    (h : d ∈ l.dropWhile p) : d ∈ l :=
  (List.dropWhile_sublist p).mem h

theorem matchToks_chars : ∀ {ts : List Tok} {l r : List Char},
    matchToks ts l = some r → ∀ c ∈ mandChars ts, ∃ d ∈ l, ciEq c d = true := by
  intro ts
  induction ts with
  | nil => intro l r h c hc; simp [mandChars] at hc
  | cons t ts ih =>
    intro l r h c hc
    cases t with
    | lit w =>
      rw [matchToks] at h
      cases hml : matchLit w l with
      | none => rw [hml] at h; simp at h
      | some m =>
        rw [hml] at h
        simp only [Option.some_bind] at h
        rw [mandChars] at hc
        rcases List.mem_append.1 hc with hc | hc
        · exact matchLit_chars hml c hc
        · rcases ih h c hc with ⟨d, hd, hcd⟩
          exact ⟨d, matchLit_sub hml d hd, hcd⟩
    | star p =>
      rw [matchToks] at h
      rw [mandChars] at hc
      rcases ih h c hc with ⟨d, hd, hcd⟩
      exact ⟨d, dropWhile_mem hd, hcd⟩
    | plus p =>
      cases l with
      | nil => rw [matchToks] at h; simp at h
      | cons x xs =>
        rw [matchToks] at h
        revert h
        split
        · intro h
          rw [mandChars] at hc
          rcases ih h c hc with ⟨d, hd, hcd⟩
          exact ⟨d, List.mem_cons_of_mem x (dropWhile_mem hd), hcd⟩
        · intro h; exact absurd h (by simp)
    | one p =>
      cases l with
      | nil => rw [matchToks] at h; simp at h
      | cons x xs =>
        rw [matchToks] at h
        revert h
        split
        · intro h
          rw [mandChars] at hc
          rcases ih h c hc with ⟨d, hd, hcd⟩
          exact ⟨d, List.mem_cons_of_mem x hd, hcd⟩
        · intro h; exact absurd h (by simp)
    | lazyThru stop =>
      rw [matchToks] at h
      cases hml : lazyThru stop l with
      | none => rw [hml] at h; simp at h
      | some m =>
        rw [hml] at h
        simp only [Option.some_bind] at h
        rw [mandChars] at hc
        rcases List.mem_append.1 hc with hc | hc
        · exact lazyThru_chars hml c hc
        · rcases ih h c hc with ⟨d, hd, hcd⟩
          exact ⟨d, lazyThru_sub hml d hd, hcd⟩

theorem repAllGo_id {p : List Tok} {c0 : Char} (hc : c0 ∈ mandChars p) :
    ∀ (n : Nat) (l : List Char), (∀ d ∈ l, ciEq c0 d = false) → repAllGo p n l = l := by
  intro n
  induction n with
  | zero => intro l _; cases l <;> rfl
  | succ n ih =>
    intro l h
    cases l with
    | nil => rfl
    | cons c cs =>
      rw [repAllGo]
      cases hm : matchToks p (c :: cs) with
      | some r =>
        rcases matchToks_chars hm c0 hc with ⟨d, hd, hcd⟩
        exact absurd hcd (by simp [h d hd])
      | none =>
        simp only []
        rw [ih cs (fun d hd => h d (List.mem_cons_of_mem c hd))]

theorem repAll_id (c0 : Char) {p : List Tok} (hc : c0 ∈ mandChars p)
    {l : List Char} (h : ∀ d ∈ l, ciEq c0 d = false) : repAll p l = l :=
  repAllGo_id hc l.length l h

/-! ## Character-class facts -/

theorem toLower_lowerDigit {c : Char} (h : isLowerDigit c = true) : c.toLower = c := by
  simp only [isLowerDigit, Bool.or_eq_true, Bool.and_eq_true, decide_eq_true_eq] at h
  have hn : ¬(c.toNat ≥ 65 ∧ c.toNat ≤ 90) := by omega
  simp [Char.toLower, hn]

theorem ciEq_false_of_classes {c0 c : Char} (h0 : isLowerDigit c0 = false)
    (hl : c0.toLower = c0) (h : isLowerDigit c = true) : ciEq c0 c = false := by
  rw [ciEq, hl, toLower_lowerDigit h]
  apply beq_eq_false_iff_ne.2
  intro he
  rw [he] at h0
  simp [h] at h0

theorem beq_false_of_classes {c0 c : Char} (h0 : isLowerDigit c0 = false)
    (h : isLowerDigit c = true) : (c == c0) = false := by
  apply beq_eq_false_iff_ne.2
  intro he
  rw [← he] at h0
  simp [h] at h0

theorem isStripCtl_false {c : Char} (h : isLowerDigit c = true) : isStripCtl c = false := by
  simp only [isLowerDigit, Bool.or_eq_true, Bool.and_eq_true, decide_eq_true_eq] at h
  simp only [isStripCtl, Bool.or_eq_false_iff, Bool.and_eq_false_iff,
    decide_eq_false_iff_not, beq_eq_false_iff_ne, ne_eq]
  omega

theorem isJsSpace_false {c : Char} (h : isLowerDigit c = true) : isJsSpace c = false := by
  simp only [isLowerDigit, Bool.or_eq_true, Bool.and_eq_true, decide_eq_true_eq] at h
  simp only [isJsSpace, Bool.or_eq_false_iff, Bool.and_eq_false_iff,
    decide_eq_false_iff_not, beq_eq_false_iff_ne, ne_eq]
  omega

/-! ## Identity of the pipeline stages on plain input -/

theorem stripControl_id {l : List Char} (h : ∀ d ∈ l, isLowerDigit d = true) :
    stripControl l = l := by
  rw [stripControl]
  apply List.filter_eq_self.2
  intro a ha
  simp [isStripCtl_false (h a ha)]

theorem dropWhile_id {p : Char → Bool} {l : List Char}
    (h : ∀ d ∈ l, p d = false) : l.dropWhile p = l := by
  cases l with
  | nil => rfl
  | cons c cs =>
    rw [List.dropWhile_cons, h c (List.mem_cons_self c cs)]
    simp

theorem jsTrim_id {l : List Char} (h : ∀ d ∈ l, isLowerDigit d = true) :
    jsTrim l = l := by
  have hws : ∀ d ∈ l, isJsSpace d = false := fun d hd => isJsSpace_false (h d hd)
  rw [jsTrim, dropWhile_id hws,
    dropWhile_id (fun d hd => hws d (List.mem_reverse.1 hd)), List.reverse_reverse]

theorem repChar_id {x : Char} {r l : List Char} (h : ∀ d ∈ l, (d == x) = false) :
    repChar x r l = l := by
  induction l with
  | nil => rfl
  | cons c cs ih =>
    rw [repChar, h c (List.mem_cons_self c cs)]
    simp only [Bool.false_eq_true, if_false]
    rw [ih (fun d hd => h d (List.mem_cons_of_mem c hd))]

theorem entityEncode_id {l : List Char} (h : ∀ d ∈ l, isLowerDigit d = true) :
    entityEncode l = l := by
  have hx : ∀ (c0 : Char), isLowerDigit c0 = false → ∀ d ∈ l, (d == c0) = false :=
    fun c0 h0 d hd => beq_false_of_classes h0 (h d hd)
  rw [entityEncode]
  rw [repChar_id (hx _ (by decide)), repChar_id (hx _ (by decide)),
    repChar_id (hx _ (by decide)), repChar_id (hx _ (by decide)),
    repChar_id (hx _ (by decide)), repChar_id (hx _ (by decide))]

theorem foldl_repAll_id {l : List Char} : ∀ {ps : List (List Tok)},
    (∀ p ∈ ps, repAll p l = l) → ps.foldl (fun s p => repAll p s) l = l := by
  intro ps
  induction ps with
  | nil => intro _; rfl
  | cons p ps ih =>
    intro h
    rw [List.foldl_cons, h p (List.mem_cons_self p ps)]
    exact ih (fun q hq => h q (List.mem_cons_of_mem p hq))

theorem stripDangerous_id {l : List Char} (h : ∀ d ∈ l, isLowerDigit d = true) :
    stripDangerous l = l := by
  have hci : ∀ (c0 : Char), isLowerDigit c0 = false → c0.toLower = c0 →
      ∀ d ∈ l, ciEq c0 d = false :=
    fun c0 h0 hl d hd => ciEq_false_of_classes h0 hl (h d hd)
  rw [stripDangerous]
  apply foldl_repAll_id
  intro p hp
  simp only [dangerousPatterns, List.mem_cons, List.not_mem_nil, or_false] at hp
  rcases hp with rfl | rfl | rfl | rfl | rfl | rfl | rfl | rfl | rfl | rfl | rfl | rfl | rfl | rfl | rfl | rfl
  · exact repAll_id (Char.ofNat 58) (by decide) (hci _ (by decide) (by decide))
  · exact repAll_id (Char.ofNat 58) (by decide) (hci _ (by decide) (by decide))
  · exact repAll_id (Char.ofNat 58) (by decide) (hci _ (by decide) (by decide))
  · exact repAll_id (Char.ofNat 61) (by decide) (hci _ (by decide) (by decide))
  · exact repAll_id (Char.ofNat 60) (by decide) (hci _ (by decide) (by decide))
  · exact repAll_id (Char.ofNat 60) (by decide) (hci _ (by decide) (by decide))
  · exact repAll_id (Char.ofNat 60) (by decide) (hci _ (by decide) (by decide))
  · exact repAll_id (Char.ofNat 60) (by decide) (hci _ (by decide) (by decide))
  · exact repAll_id (Char.ofNat 60) (by decide) (hci _ (by decide) (by decide))
  · exact repAll_id (Char.ofNat 60) (by decide) (hci _ (by decide) (by decide))
  · exact repAll_id (Char.ofNat 60) (by decide) (hci _ (by decide) (by decide))
  · exact repAll_id (Char.ofNat 40) (by decide) (hci _ (by decide) (by decide))
  · exact repAll_id (Char.ofNat 64) (by decide) (hci _ (by decide) (by decide))
  · exact repAll_id (Char.ofNat 38) (by decide) (hci _ (by decide) (by decide))
  · exact repAll_id (Char.ofNat 38) (by decide) (hci _ (by decide) (by decide))
  · exact repAll_id (Char.ofNat 40) (by decide) (hci _ (by decide) (by decide))

theorem sanitizeList_id {l : List Char} (h : ∀ d ∈ l, isLowerDigit d = true)
    (hlen : l.length ≤ 2000) : sanitizeList l = l := by
  rw [sanitizeList, stripControl_id h, stripDangerous_id h, entityEncode_id h,
    repAll_id (Char.ofNat 60) (by decide)
      (fun d hd => ciEq_false_of_classes (by decide) (by decide) (h d hd)),
    jsTrim_id h, List.take_of_length_le hlen]

theorem sanitizeInput_fixed {x : String} (h : ∀ c ∈ x.data, isLowerDigit c = true)
    (hlen : x.data.length ≤ 2000) : sanitizeInput x = x := by
  rw [sanitizeInput]
  split
  case isTrue hx => exact (eq_of_beq hx).symm
  case isFalse =>
    rw [sanitizeList_id h hlen]

/-! ## Rate limiter lemmas -/

theorem check_none {cfg : RateLimitConfig} {id : String} {now : Int} {st : RLStore}
    (h : st id = none) :
    check cfg id now st =
      (⟨true, (cfg.maxRequests : Int) - 1, now + cfg.window⟩,
        rlCleanup cfg now (rlUpdate st id ⟨1, now + cfg.window, now⟩)) := by
  simp only [check, h]

theorem check_expired {cfg : RateLimitConfig} {id : String} {now : Int} {st : RLStore}
    {e : RateLimitEntry} (h : st id = some e) (he : now > e.resetTime) :
    check cfg id now st =
      (⟨true, (cfg.maxRequests : Int) - 1, now + cfg.window⟩,
        rlCleanup cfg now (rlUpdate st id ⟨1, now + cfg.window, now⟩)) := by
  simp only [check, h]
  rw [if_pos he]

theorem check_blocked {cfg : RateLimitConfig} {id : String} {now : Int} {st : RLStore}
    {e : RateLimitEntry} (h : st id = some e) (hcur : ¬ now > e.resetTime)
    (hfull : cfg.maxRequests ≤ e.count) :
    check cfg id now st = (⟨false, 0, e.resetTime⟩, st) := by
  simp only [check, h]
  rw [if_neg hcur, if_pos hfull]

theorem check_incr {cfg : RateLimitConfig} {id : String} {now : Int} {st : RLStore}
    {e : RateLimitEntry} (h : st id = some e) (hcur : ¬ now > e.resetTime)
    (hlt : e.count < cfg.maxRequests) :
    check cfg id now st =
      (⟨true, (cfg.maxRequests : Int) - (e.count + 1), e.resetTime⟩,
        rlUpdate st id ⟨e.count + 1, e.resetTime, now⟩) := by
  simp only [check, h]
  rw [if_neg hcur, if_neg (not_le.2 hlt)]

theorem fresh_at_id {cfg : RateLimitConfig} {id : String} {now : Int} {st : RLStore}
    (hW : 0 ≤ cfg.window) :
    rlCleanup cfg now (rlUpdate st id ⟨1, now + cfg.window, now⟩) id =
      some ⟨1, now + cfg.window, now⟩ := by
  unfold rlCleanup rlUpdate
  simp only [beq_self_eq_true, if_true, Option.some_bind]
  rw [if_neg (by omega)]

theorem rlRun_inv {cfg : RateLimitConfig} {id : String} {u : Nat → Int} {st : RLStore}
    {N : Nat} (hmax : cfg.maxRequests = N) (hW : 0 ≤ cfg.window)
    (hstart : st id = none) (hwin : ∀ i : Fin (N + 1), u i.val ≤ u 0 + cfg.window) :
    ∀ k, 1 ≤ k → k ≤ N →
      rlRunTimes cfg id u st k id = some ⟨k, u 0 + cfg.window, u (k - 1)⟩ := by
  intro k
  induction k with
  | zero => omega
  | succ k ih =>
    intro _ hN
    cases Nat.eq_zero_or_pos k with
    | inl h0 =>
      subst h0
      rw [rlRunTimes, rlRunTimes, check_none hstart]
      exact fresh_at_id hW
    | inr hk =>
      have ihh := ih hk (Nat.le_of_succ_le hN)
      have hcur : ¬ u k > u 0 + cfg.window :=
        not_lt.2 (hwin ⟨k, by omega⟩)
      have hlt : k < cfg.maxRequests := by omega
      rw [rlRunTimes, check_incr ihh hcur hlt]
      simp [rlUpdate]

theorem check_agree (cfg : RateLimitConfig) (now : Int) {id : String} {s s' : RLStore}
    (h : s id = s' id) :
    (check cfg id now s).1 = (check cfg id now s').1 ∧
      (check cfg id now s).2 id = (check cfg id now s').2 id := by
  cases hs : s id with
  | none =>
    have hs' : s' id = none := by rw [← h]; exact hs
    rw [check_none hs, check_none hs']
    refine ⟨rfl, ?_⟩
    unfold rlCleanup rlUpdate
    simp only [beq_self_eq_true, if_true]
  | some e =>
    have hs' : s' id = some e := by rw [← h]; exact hs
    by_cases hex : now > e.resetTime
    · rw [check_expired hs hex, check_expired hs' hex]
      refine ⟨rfl, ?_⟩
      unfold rlCleanup rlUpdate
      simp only [beq_self_eq_true, if_true]
    · by_cases hfull : cfg.maxRequests ≤ e.count
      · rw [check_blocked hs hex hfull, check_blocked hs' hex hfull]
        exact ⟨rfl, h⟩
      · rw [check_incr hs hex (not_le.1 hfull), check_incr hs' hex (not_le.1 hfull)]
        refine ⟨rfl, ?_⟩
        unfold rlUpdate
        simp only [beq_self_eq_true, if_true]

theorem rlObserve_congr {cfg : RateLimitConfig} {id : String} :
    ∀ {ts : List Int} {s s' : RLStore}, s id = s' id →
      rlObserve cfg id s ts = rlObserve cfg id s' ts := by
  intro ts
  induction ts with
  | nil => intro s s' _; rfl
  | cons t ts ih =>
    intro s s' h
    rw [rlObserve, rlObserve]
    have hag := check_agree cfg t h
    rw [hag.1]
    congr 1
    exact ih hag.2

theorem check_other (cfg : RateLimitConfig) (tA : Int) (st : RLStore) {A B : String}
    (hBA : (B == A) = false) :
    ((check cfg A tA st).2) B = st B ∨
      ∃ e, st B = some e ∧ e.lastSeen < tA - cfg.window * 2 ∧
        ((check cfg A tA st).2) B = none := by
  have hfreshB : (rlCleanup cfg tA (rlUpdate st A ⟨1, tA + cfg.window, tA⟩)) B = st B ∨
      ∃ e, st B = some e ∧ e.lastSeen < tA - cfg.window * 2 ∧
        (rlCleanup cfg tA (rlUpdate st A ⟨1, tA + cfg.window, tA⟩)) B = none := by
    unfold rlCleanup rlUpdate
    simp only [hBA, Bool.false_eq_true, if_false]
    cases hB : st B with
    | none => exact Or.inl rfl
    | some e =>
      by_cases hstale : e.lastSeen < tA - cfg.window * 2
      · exact Or.inr ⟨e, rfl, hstale, by simp only [Option.some_bind]; rw [if_pos hstale]⟩
      · refine Or.inl ?_
        simp only [Option.some_bind]
        rw [if_neg hstale]
  cases hs : st A with
  | none => rw [check_none hs]; exact hfreshB
  | some entry =>
    by_cases hex : tA > entry.resetTime
    · rw [check_expired hs hex]; exact hfreshB
    · by_cases hfull : cfg.maxRequests ≤ entry.count
      · rw [check_blocked hs hex hfull]; exact Or.inl rfl
      · rw [check_incr hs hex (not_le.1 hfull)]
        refine Or.inl ?_
        unfold rlUpdate
        simp only [hBA, Bool.false_eq_true, if_false]

theorem cleanup_bounded {cfg : RateLimitConfig} {now : Int} {st : RLStore}
    (hb : storeBounded cfg st) : storeBounded cfg (rlCleanup cfg now st) := by
  intro k e hk
  unfold rlCleanup at hk
  cases hsk : st k with
  | none => rw [hsk] at hk; exact absurd hk (by simp)
  | some e' =>
    rw [hsk] at hk
    simp only [Option.some_bind] at hk
    split at hk
    · exact absurd hk (by simp)
    · cases hk
      exact hb k _ hsk

theorem update_bounded {cfg : RateLimitConfig} {st : RLStore} {id : String}
    (hb : storeBounded cfg st) {c : Nat} {r s : Int} (h1 : 1 ≤ c)
    (h2 : c ≤ cfg.maxRequests) :
    storeBounded cfg (rlUpdate st id ⟨c, r, s⟩) := by
  intro k e hk
  unfold rlUpdate at hk
  split at hk
  · cases hk; exact ⟨h1, h2⟩
  · exact hb k e hk

theorem check_preserves_bounded {cfg : RateLimitConfig} (h1 : 1 ≤ cfg.maxRequests)
    {st : RLStore} {id : String} {now : Int} (hb : storeBounded cfg st) :
    storeBounded cfg (check cfg id now st).2 := by
  cases hs : st id with
  | none =>
    rw [check_none hs]
    exact cleanup_bounded (update_bounded hb (le_refl 1) h1)
  | some entry =>
    by_cases hex : now > entry.resetTime
    · rw [check_expired hs hex]
      exact cleanup_bounded (update_bounded hb (le_refl 1) h1)
    · by_cases hfull : cfg.maxRequests ≤ entry.count
      · rw [check_blocked hs hex hfull]; exact hb
      · rw [check_incr hs hex (not_le.1 hfull)]
        exact update_bounded hb (Nat.le_add_left 1 entry.count)
          (Nat.succ_le_of_lt (not_le.1 hfull))

theorem applyCalls_bounded {cfg : RateLimitConfig} (h1 : 1 ≤ cfg.maxRequests) :
    ∀ (calls : List (String × Int)) (st : RLStore), storeBounded cfg st →
      storeBounded cfg (applyCalls cfg calls st) := by
  intro calls
  induction calls with
  | nil => intro st hb; exact hb
  | cons c cs ih =>
    intro st hb
    rw [applyCalls, List.foldl_cons]
    exact ih (check cfg c.1 c.2 st).2 (check_preserves_bounded h1 hb)

theorem check_remaining_nonneg {cfg : RateLimitConfig} (h1 : 1 ≤ cfg.maxRequests)
    {st : RLStore} (id : String) (now : Int) :
    0 ≤ ((check cfg id now st).1).remaining := by
  have hc : (1 : Int) ≤ (cfg.maxRequests : Int) := by exact_mod_cast h1
  cases hs : st id with
  | none =>
    rw [check_none hs]
    show (0 : Int) ≤ (cfg.maxRequests : Int) - 1
    omega
  | some entry =>
    by_cases hex : now > entry.resetTime
    · rw [check_expired hs hex]
      show (0 : Int) ≤ (cfg.maxRequests : Int) - 1
      omega
    · by_cases hfull : cfg.maxRequests ≤ entry.count
      · rw [check_blocked hs hex hfull]
      · rw [check_incr hs hex (not_le.1 hfull)]
        have hlt : ((entry.count : Int) + 1) ≤ (cfg.maxRequests : Int) := by
          exact_mod_cast Nat.succ_le_of_lt (not_le.1 hfull)
        show (0 : Int) ≤ (cfg.maxRequests : Int) - ((entry.count : Int) + 1)
        omega

set_option maxRecDepth 40000

/-- C3: for a limiter with maxRequests = N and window = W and a fresh
identifier, N consecutive check calls within one window each return
allowed = true (with remaining = N - k), the (N+1)-th call within the same
window returns allowed = false with remaining = 0, and the first call after
the window has elapsed returns allowed = true with remaining = N - 1 and a
fresh entry whose count is 1. -/
theorem c3_throttle_window_correctness (cfg : RateLimitConfig) (id : String)
    (u : Nat → Int) (st : RLStore) (N : Nat)
    (hmax : cfg.maxRequests = N) (hN : 1 ≤ N) (hW : 0 ≤ cfg.window)
    (hstart : st id = none)
    (hwin : ∀ i : Fin (N + 1), u i.val ≤ u 0 + cfg.window)
    (hafter : u 0 + cfg.window < u (N + 1)) :
    (∀ i, i < N → rlResAt cfg id u st i =
        ⟨true, (N : Int) - (i + 1), u 0 + cfg.window⟩) ∧
    rlResAt cfg id u st N = ⟨false, 0, u 0 + cfg.window⟩ ∧
    rlResAt cfg id u st (N + 1) = ⟨true, (N : Int) - 1, u (N + 1) + cfg.window⟩ ∧
    rlRunTimes cfg id u st (N + 2) id =
      some ⟨1, u (N + 1) + cfg.window, u (N + 1)⟩ := by
  have hinv := rlRun_inv hmax hW hstart hwin
  have hres0 : ∀ i, i < N → rlResAt cfg id u st i =
      ⟨true, (N : Int) - (i + 1), u 0 + cfg.window⟩ := by
    intro i hi
    cases Nat.eq_zero_or_pos i with
    | inl h0 =>
      subst h0
      rw [rlResAt, rlRunTimes, check_none hstart]
      simp [hmax]
    | inr hpos =>
      have he := hinv i hpos (le_of_lt hi)
      have hcur : ¬ u i > u 0 + cfg.window := not_lt.2 (hwin ⟨i, by omega⟩)
      have hlt : i < cfg.maxRequests := by omega
      rw [rlResAt]
      rw [check_incr he hcur hlt]
      simp [hmax]
  have heN := hinv N hN (le_refl N)
  have hcurN : ¬ u N > u 0 + cfg.window := not_lt.2 (hwin ⟨N, by omega⟩)
  have hresN : rlResAt cfg id u st N = ⟨false, 0, u 0 + cfg.window⟩ := by
    rw [rlResAt, check_blocked heN hcurN (by show cfg.maxRequests ≤ N; omega)]
  have hstN1 : rlRunTimes cfg id u st (N + 1) id =
      some ⟨N, u 0 + cfg.window, u (N - 1)⟩ := by
    rw [rlRunTimes, check_blocked heN hcurN (by show cfg.maxRequests ≤ N; omega)]
    exact heN
  have hresN1 : rlResAt cfg id u st (N + 1) =
      ⟨true, (N : Int) - 1, u (N + 1) + cfg.window⟩ := by
    rw [rlResAt, check_expired hstN1 hafter]
    simp [hmax]
  have hst4 : rlRunTimes cfg id u st (N + 2) id =
      some ⟨1, u (N + 1) + cfg.window, u (N + 1)⟩ := by
    rw [rlRunTimes, check_expired hstN1 hafter]
    exact fresh_at_id hW
  exact ⟨hres0, hresN, hresN1, hst4⟩

/-- Witness for C3 at window 10, maxRequests 3, calls at times 0, 1, 2, 3
(the fourth is blocked) and 100 (after the window: fresh count 1). -/
theorem c3_throttle_window_correctness_witness :
    rlResAt ⟨10, 3⟩ ("c") (fun i => if i ≤ 3 then (i : Int) else 100) rlEmpty 3 =
        ⟨false, 0, 10⟩ ∧
    rlResAt ⟨10, 3⟩ ("c") (fun i => if i ≤ 3 then (i : Int) else 100) rlEmpty 4 =
        ⟨true, 2, 110⟩ ∧
    rlRunTimes ⟨10, 3⟩ ("c") (fun i => if i ≤ 3 then (i : Int) else 100) rlEmpty 5 ("c") =
        some ⟨1, 110, 100⟩ := by
  have h := c3_throttle_window_correctness ⟨10, 3⟩ ("c")
    (fun i => if i ≤ 3 then (i : Int) else 100) rlEmpty 3
    rfl (by decide) (by decide) rfl (by decide) (by decide)
  have h2 := h.2.1
  have h3 := h.2.2.1
  have h4 := h.2.2.2
  norm_num at h2 h3 h4
  exact ⟨h2, h3, h4⟩

/-- C8: a check call for an identifier whose entry is current and full
returns allowed = false with remaining = 0 and leaves the store — hence the
entry's count, windowResetAt and lastSeenAt — completely unchanged, for any
number of repeated blocked calls. -/
theorem c8_blocked_calls_leave_state_unchanged (cfg : RateLimitConfig)
    (id : String) (st : RLStore) (e : RateLimitEntry) (hst : st id = some e)
    (hfull : cfg.maxRequests ≤ e.count) :
    (∀ now, now ≤ e.resetTime → check cfg id now st = (⟨false, 0, e.resetTime⟩, st)) ∧
    (∀ ts : List Int, (∀ t ∈ ts, t ≤ e.resetTime) →
      ts.foldl (fun s t => (check cfg id t s).2) st = st) := by
  have hone : ∀ now, now ≤ e.resetTime →
      check cfg id now st = (⟨false, 0, e.resetTime⟩, st) :=
    fun now hn => check_blocked hst (not_lt.2 hn) hfull
  refine ⟨hone, ?_⟩
  intro ts
  induction ts with
  | nil => intro _; rfl
  | cons t ts ih =>
    intro h
    rw [List.foldl_cons]
    rw [hone t (h t (List.mem_cons_self t ts))]
    exact ih (fun t2 ht2 => h t2 (List.mem_cons_of_mem t ht2))

/-- Witness for C8: a full current entry at count 2 of 2; a blocked call at
time 45 and two further blocked calls at 46 and 47 leave the store intact. -/
theorem c8_blocked_calls_witness :
    check ⟨10, 2⟩ ("a") 45 (fun k => if k == ("a") then some ⟨2, 50, 40⟩ else none) =
      (⟨false, 0, 50⟩, fun k => if k == ("a") then some ⟨2, 50, 40⟩ else none) ∧
    [(46 : Int), 47].foldl (fun s t => (check ⟨10, 2⟩ ("a") t s).2)
        (fun k => if k == ("a") then some ⟨2, 50, 40⟩ else none) =
      (fun k => if k == ("a") then some ⟨2, 50, 40⟩ else none) := by
  have h := c8_blocked_calls_leave_state_unchanged ⟨10, 2⟩ ("a")
    (fun k => if k == ("a") then some ⟨2, 50, 40⟩ else none)
    ⟨2, 50, 40⟩ (by decide) (by decide)
  exact ⟨h.1 45 (by decide), h.2 [46, 47] (by decide)⟩

/-- C9: for distinct identifiers A and B, a check call for A never changes
the results subsequent check calls for B observe; A's call can at most
garbage-collect a stale entry of B, and a stale entry's window has already
expired (the hStale hypothesis, which holds in every store the limiter
itself builds), so the deletion is observationally invisible. -/
theorem c9_throttle_isolation {cfg : RateLimitConfig} {A B : String} {tA : Int}
    {st : RLStore} {ts : List Int} (hAB : A ≠ B)
    (hStale : ∀ e, st B = some e → e.lastSeen < tA - cfg.window * 2 →
      e.resetTime < tA)
    (hts : ∀ t ∈ ts, tA ≤ t) :
    rlObserve cfg B ((check cfg A tA st).2) ts = rlObserve cfg B st ts := by
  have hBA : (B == A) = false := beq_eq_false_iff_ne.2 (Ne.symm hAB)
  rcases check_other cfg tA st hBA with h | ⟨e, hB, hstale, hB2⟩
  · exact rlObserve_congr h
  · cases ts with
    | nil => rfl
    | cons t ts2 =>
      have htA : tA ≤ t := hts t (List.mem_cons_self t ts2)
      have hexp : t > e.resetTime := lt_of_lt_of_le (hStale e hB hstale) htA
      rw [rlObserve, rlObserve, check_none hB2, check_expired hB hexp]
      congr 1
      apply rlObserve_congr
      unfold rlCleanup rlUpdate
      simp only [beq_self_eq_true, if_true]

/-- Witness for C9: a call for identifier a at time 0 does not change what
calls for identifier b at times 1 and 2 observe. -/
theorem c9_throttle_isolation_witness :
    rlObserve ⟨10, 3⟩ ("b") ((check ⟨10, 3⟩ ("a") 0 rlEmpty).2) [1, 2] =
      rlObserve ⟨10, 3⟩ ("b") rlEmpty [1, 2] :=
  c9_throttle_isolation (by decide) (fun e h _ => Option.noConfusion h) (by decide)

/-- C10: starting from the empty store, any sequence of check calls on a
limiter with maxRequests ≥ 1 leaves every stored entry with
1 ≤ count ≤ maxRequests, and the remaining value returned by a further
check is never negative. -/
theorem c10_count_bounds_and_remaining_nonneg {cfg : RateLimitConfig}
    (h1 : 1 ≤ cfg.maxRequests) (calls : List (String × Int)) :
    (∀ id e, applyCalls cfg calls rlEmpty id = some e →
        1 ≤ e.count ∧ e.count ≤ cfg.maxRequests) ∧
    (∀ id now, 0 ≤ ((check cfg id now (applyCalls cfg calls rlEmpty)).1).remaining) := by
  have hb : storeBounded cfg (applyCalls cfg calls rlEmpty) :=
    applyCalls_bounded h1 calls rlEmpty (fun id e h => Option.noConfusion h)
  exact ⟨hb, fun id now => check_remaining_nonneg h1 id now⟩

/-- Witness for C10 with the default configuration, two calls for one
identifier and a third check. -/
theorem c10_count_bounds_witness :
    0 ≤ ((check ⟨60000, 5⟩ ("x") 7
        (applyCalls ⟨60000, 5⟩ [(("x"), 0), (("x"), 3)] rlEmpty)).1).remaining :=
  (c10_count_bounds_and_remaining_nonneg (by decide)
    [(("x"), 0), (("x"), 3)]).2 ("x") 7

/-- C1 (failing run): after issuing a 64-byte secret for session k1, a first
validateCSRFToken call with a supplied secret of a different byte length
(here the empty string) makes crypto.timingSafeEqual throw, so the call does
NOT delete the stored entry, and a second call with the true secret then
returns true — the claim required the second call to return false. -/
theorem c1_token_survives_throwing_validate :
    validateCSRFToken ("") ("k1") 1
        ((generateCSRFToken (String.mk (List.replicate 64 (Char.ofNat 97))) 0 ("k1") []).2) =
      (Except.error (),
        (generateCSRFToken (String.mk (List.replicate 64 (Char.ofNat 97))) 0 ("k1") []).2) ∧
    (validateCSRFToken (String.mk (List.replicate 64 (Char.ofNat 97))) ("k1") 2
        ((generateCSRFToken (String.mk (List.replicate 64 (Char.ofNat 97))) 0 ("k1") []).2)).1 =
      Except.ok true := by
  decide

/-- C4 (failing run): with a live 64-byte stored secret for session s4, a
validateCSRFToken call supplying the 1-byte secret x throws (RangeError from
crypto.timingSafeEqual on buffers of different byte length) instead of
returning a boolean, and the stored entry is NOT deleted. -/
theorem c4_validate_throws_and_keeps_entry :
    validateCSRFToken ("x") ("s4") 200
        ((generateCSRFToken (String.mk (List.replicate 64 (Char.ofNat 98))) 100 ("s4") []).2) =
      (Except.error (),
        (generateCSRFToken (String.mk (List.replicate 64 (Char.ofNat 98))) 100 ("s4") []).2) ∧
    mapGet ("s4")
        ((generateCSRFToken (String.mk (List.replicate 64 (Char.ofNat 98))) 100 ("s4") []).2) =
      some ⟨String.mk (List.replicate 64 (Char.ofNat 98)), 100, 3600100⟩ := by
  decide

/-- C2 counterexample: sanitizeInput is not idempotent — a second pass
re-encodes the ampersand of the entity produced by the first pass. -/
theorem c2_sanitize_not_idempotent :
    sanitizeInput ("&") = ("&amp;") ∧
    sanitizeInput (sanitizeInput ("&")) = ("&amp;amp;") ∧
    ¬ sanitizeInput (sanitizeInput ("&")) = sanitizeInput ("&") := by
  decide

/-- C2 amended: sanitizeInput is idempotent on inputs made of lowercase
ASCII letters and digits of length at most 2000 (it is the identity there);
on general input a second pass re-encodes ampersands and strips the
entities the first pass produced. -/
theorem c2_sanitize_idempotent_on_plain_alnum (x : String)
    (h : ∀ c ∈ x.data, isLowerDigit c = true) (hlen : x.data.length ≤ 2000) :
    sanitizeInput (sanitizeInput x) = sanitizeInput x := by
  rw [sanitizeInput_fixed h hlen, sanitizeInput_fixed h hlen]

/-- Witness for the amended C2 at the input abc123. -/
theorem c2_sanitize_idempotent_witness :
    sanitizeInput (sanitizeInput ("abc123")) = sanitizeInput ("abc123") :=
  c2_sanitize_idempotent_on_plain_alnum ("abc123") (by decide) (by decide)

/-- C5 counterexample: issuing tokens for 103 distinct session keys at one
instant leaves the store at 103 entries — beyond the 100-entry capacity
bound — with every stored token unexpired, so the capacity-triggered
cleanup evicted nothing. -/
theorem c5_store_grows_past_capacity :
    MAX_STORED_TOKENS < mapSize (issueMany ("t") 0 ((List.range 103).map toString) []) ∧
    mapSize (issueMany ("t") 0 ((List.range 103).map toString) []) = 103 ∧
    (issueMany ("t") 0 ((List.range 103).map toString) []).all
      (fun p => p.2.expiresAt == 3600000) = true := by
  decide

/-- C5 amended: when an issuance finds the store grown beyond
MAX_STORED_TOKENS entries (checked after the new token is inserted), the
cleanup pass removes exactly the expired entries, so no expired entry
remains — but nothing evicts unexpired entries, and the store can exceed
the capacity bound (see the counterexample). -/
theorem c5_cleanup_after_insert_removes_expired (tok sid : String) (now : Int)
    (st : TokenStore)
    (h : MAX_STORED_TOKENS < mapSize (mapSet sid ⟨tok, now, now + TOKEN_TTL⟩ st)) :
    ((generateCSRFToken tok now sid st).2).all
      (fun p => !(decide (now > p.2.expiresAt))) = true := by
  simp only [generateCSRFToken]
  rw [if_pos h]
  unfold cleanupExpiredTokens
  apply List.all_eq_true.2
  intro x hx
  exact (List.mem_filter.1 hx).2

/-- Witness for the amended C5: 102 tokens issued at time 0 have expired by
time 4000000; the issuance that pushes the store to 103 entries cleans all
of them out. -/
theorem c5_cleanup_witness :
    ((generateCSRFToken ("t") 4000000 ("x")
        (issueMany ("t0") 0 ((List.range 102).map toString) [])).2).all
      (fun p => !(decide ((4000000 : Int) > p.2.expiresAt))) = true :=
  c5_cleanup_after_insert_removes_expired ("t") ("x") 4000000
    (issueMany ("t0") 0 ((List.range 102).map toString) []) (by decide)

/-- C6: sanitizeInput applied to a script-injection payload yields Hello,
which contains no script tag and no raw angle brackets. -/
theorem c6_sanitize_removes_script_injection :
    sanitizeInput ("<script>alert(1)</script>Hello") = ("Hello") ∧
    containsSub (("<script>").data)
      (sanitizeInput ("<script>alert(1)</script>Hello")).data = false ∧
    (sanitizeInput ("<script>alert(1)</script>Hello")).data.all
      (fun c => !(c == Char.ofNat 60 || c == Char.ofNat 62)) = true := by
  decide

/-- C7 counterexample: the Zod contact-form schema accepts the address
a+b@cd.ef, which contains a plus character — the schema-validation stage
does not implement the stricter plus/double-dot rejection. -/
theorem c7_schema_accepts_plus_address :
    contactEmailValid ("a+b@cd.ef") = true ∧
    ("a+b@cd.ef").data.contains (Char.ofNat 43) = true := by
  decide

/-- C7 amended: the stricter policy lives in the standalone validateEmail
utility — every address containing a plus or a double dot is rejected by
validateEmail — while the schema's email rule enforces only the pattern
match and the 5-to-255-character length. -/
theorem c7_plus_double_dot_rejected_by_validateEmail :
    (∀ s : String,
        (s.data.contains (Char.ofNat 43) || containsSub (("..").data) s.data) = true →
        validateEmail s = false) ∧
    (∀ s : String, contactEmailValid s = true → 5 ≤ s.length ∧ s.length ≤ 255) := by
  constructor
  · intro s h
    unfold validateEmail
    by_cases h1 : (!(emailRegexTest s)) = true
    · rw [if_pos h1]
    · rw [if_neg h1]
      by_cases h2 : s.length > MAX_EMAIL_LENGTH
      · rw [if_pos h2]
      · rw [if_neg h2, if_pos h]
  · intro s h
    simp only [contactEmailValid, Bool.and_eq_true, decide_eq_true_eq] at h
    exact ⟨h.1.2, h.2⟩

/-- Witness for the amended C7: a+b@cd.ef is rejected by validateEmail;
ab@cd.ef passes the schema and its length lies in the 5-to-255 range. -/
theorem c7_validateEmail_witness :
    validateEmail ("a+b@cd.ef") = false ∧
    (5 ≤ ("ab@cd.ef").length ∧ ("ab@cd.ef").length ≤ 255) :=
  ⟨(c7_plus_double_dot_rejected_by_validateEmail).1 ("a+b@cd.ef") (by decide),
   (c7_plus_double_dot_rejected_by_validateEmail).2 ("ab@cd.ef") (by decide)⟩
